import Mathlib

/-!
Verification of the bsky-autopost repository's adaptive publishing pipeline
against its specification.  The Bangla-date script (src/scripts/bangla-dates)
is embedded directly from the JavaScript source; components that live only in
the Python scripts described by the documentation (compressor, caption
builder, assembler, facet detection) are modelled from the spec, as marked on
each definition.
-/

namespace BskyAutopost

/-! ## Embedding of src/scripts/bangla-dates/utils.js -/

/-- `BANGLA_ORDINALS` from utils.js: the 31 Bangla day numerals mapped to
their ordinal forms. -/
def BANGLA_ORDINALS : List (String × String) :=
  [("১", "১লা"), ("২", "২রা"), ("৩", "৩রা"), ("৪", "৪ঠা"),
   ("৫", "৫ই"), ("৬", "৬ই"), ("৭", "৭ই"), ("৮", "৮ই"), ("৯", "৯ই"),
   ("১০", "১০ই"), ("১১", "১১ই"), ("১২", "১২ই"), ("১৩", "১৩ই"),
   ("১৪", "১৪ই"), ("১৫", "১৫ই"), ("১৬", "১৬ই"), ("১৭", "১৭ই"),
   ("১৮", "১৮ই"), ("১৯", "১৯শে"), ("২০", "২০শে"), ("২১", "২১শে"),
   ("২২", "২২শে"), ("২৩", "২৩শে"), ("২৪", "২৪শে"), ("২৫", "২৫শে"),
   ("২৬", "২৬শে"), ("২৭", "২৭শে"), ("২৮", "২৮শে"), ("২৯", "২৯শে"),
   ("৩০", "৩০শে"), ("৩১", "৩১শে")]

/-- A value produced by a JavaScript object property access: either a
string stored in the object literal (or supplied as the `||` fallback), or
a member inherited from `Object.prototype` — a function or object, in
either case truthy and not a string. -/
inductive JsValue where
  | str (s : String)
  | inherited (name : String)
deriving DecidableEq

/-- The property names every plain JavaScript object inherits from
`Object.prototype`: property access on the object literals in utils.js
finds these on the prototype chain, and each resolves to a truthy value. -/
def objectPrototypeKeys : List String :=
  ["constructor", "hasOwnProperty", "isPrototypeOf", "propertyIsEnumerable",
   "toLocaleString", "toString", "valueOf", "__proto__",
   "__defineGetter__", "__defineSetter__", "__lookupGetter__", "__lookupSetter__"]

/-- JavaScript property access `obj[key]` on an object literal with own
string properties `own`: an own property shadows the prototype; otherwise
the access walks the prototype chain up to `Object.prototype`; otherwise
the result is `undefined` (`none`). -/
def jsObjectGet (own : List (String × String)) (key : String) : Option JsValue :=
  match own.lookup key with
  | some v => some (.str v)
  | none => if key ∈ objectPrototypeKeys then some (.inherited key) else none

/-- `getBanglaOrdinal` from utils.js: `BANGLA_ORDINALS[banglaDate] || banglaDate`.
Own values and inherited prototype members are truthy, so `||` returns
them; only an `undefined` access falls back to the argument. -/
def getBanglaOrdinal (banglaDate : String) : JsValue :=
  (jsObjectGet BANGLA_ORDINALS banglaDate).getD (.str banglaDate)

/-- `BANGLA_SEASONS` from utils.js: the 12 Bangla month names mapped to the
six seasons. -/
def BANGLA_SEASONS : List (String × String) :=
  [("বৈশাখ", "গ্রীষ্ম"), ("জ্যৈষ্ঠ", "গ্রীষ্ম"),
   ("আষাঢ়", "বর্ষা"), ("শ্রাবণ", "বর্ষা"),
   ("ভাদ্র", "শরৎ"), ("আশ্বিন", "শরৎ"),
   ("কার্তিক", "হেমন্ত"), ("অগ্রহায়ণ", "হেমন্ত"),
   ("পৌষ", "শীত"), ("মাঘ", "শীত"),
   ("ফাল্গুন", "বসন্ত"), ("চৈত্র", "বসন্ত")]

/-- `getBanglaSeason` from utils.js: `BANGLA_SEASONS[banglaMonth] || ''`.
As with `getBanglaOrdinal`, an inherited prototype member is truthy and is
returned by `||`; only an `undefined` access yields the empty string. -/
def getBanglaSeason (banglaMonth : String) : JsValue :=
  (jsObjectGet BANGLA_SEASONS banglaMonth).getD (.str "")

/-- The string carried by a JS value, with the empty string for inherited
prototype members; at the twelve month keys `getBanglaSeason` always
yields an own string, so there this projection is exact. -/
def jsStrOrEmpty : JsValue → String
  | .str s => s
  | .inherited _ => ""

/-! ## Bangla numerals and the ordinal-suffix rule (for stating C9) -/

/-- One Bangla digit (codepoints U+09E6 .. U+09EF). -/
def banglaDigit (d : Nat) : String :=
  match d with
  | 0 => "০" | 1 => "১" | 2 => "২" | 3 => "৩" | 4 => "৪"
  | 5 => "৫" | 6 => "৬" | 7 => "৭" | 8 => "৮" | 9 => "৯"
  | _ => ""

/-- Decimal digits of a number, most significant first (fuel-based so that it
reduces in the kernel). -/
def natDigitsAux : Nat → Nat → List Nat
  | 0, _ => []
  | fuel + 1, n => if n < 10 then [n] else natDigitsAux fuel (n / 10) ++ [n % 10]

/-- Decimal digits of `n`, most significant first. -/
def natDigits (n : Nat) : List Nat := natDigitsAux (n + 1) n

/-- The Bangla numeral string for `n`. -/
def banglaNumeral (n : Nat) : String :=
  ((natDigits n).map banglaDigit).foldl (fun a b => a ++ b) ""

/-- The ordinal-suffix rule claimed for days 1..31: লা for 1, রা for 2-3,
ঠা for 4, ই for 5-18, শে for 19-31. -/
def ordinalSuffix (n : Nat) : String :=
  if n = 1 then "লা"
  else if n ≤ 3 then "রা"
  else if n = 4 then "ঠা"
  else if n ≤ 18 then "ই"
  else "শে"

/-- Keys of an association list. -/
def keysOf (l : List (String × String)) : List String := l.map Prod.fst

/-! ## Embedding of src/scripts/bangla-dates/index.js: postToBluesky and main

The network client (`AtpAgent`) is external; its calls are recorded as an
event trace, and the success or failure of each external call is an input
(`BskyIO`).  Everything else follows the control flow of the source. -/

/-- The environment variables read by index.js. -/
structure Env where
  BLUESKY_HANDLE : Option String
  BSKY_USERNAME : Option String
  BLUESKY_PASSWORD : Option String
  BSKY_APP_PASSWORD : Option String
  POST_TO_BLUESKY : Option String
deriving DecidableEq

/-- JavaScript truthiness for an env-var value: `undefined` and the empty
string are falsy. -/
def truthy : Option String → Bool
  | none => false
  | some s => !(s == "")

/-- JavaScript `a || b` on env-var values. -/
def jsOr (a b : Option String) : Option String := if truthy a then a else b

/-- ASCII lower-casing of one character (what `toLowerCase` does on the
flag values this script compares against "true"). -/
def asciiToLower (c : Char) : Char :=
  if 'A' ≤ c && c ≤ 'Z' then Char.ofNat (c.toNat + 32) else c

/-- JavaScript `s.toLowerCase()` on the POST_TO_BLUESKY flag. -/
def jsToLowerCase (s : String) : String := String.mk (s.data.map asciiToLower)

/-- Whether each external call made by `postToBluesky` succeeds; a `false`
models the corresponding `await` throwing. -/
structure BskyIO where
  loginOk : Bool
  uploadOk : Bool
  postOk : Bool
deriving DecidableEq

/-- Calls issued to the external posting client, in order.  `uploadBlob`
carries the byte length of the blob passed; `createPost` carries the number
of images embedded in the record. -/
inductive Event where
  | login
  | uploadBlob (bytes : Nat)
  | createPost (numImages : Nat)
deriving DecidableEq

/-- Result of one `postToBluesky` invocation: its return value, the calls it
issued, and whether its catch block logged an error. -/
structure PostResult where
  success : Bool
  events : List Event
  errorLogged : Bool
deriving DecidableEq

/-- The image list of the post record built in `postToBluesky` (lines
463-474): exactly one image, its alt text `আজকের বাংলা তারিখ: ${dateText}`
paired with the uploaded blob. -/
def banglaEmbedImages (dateText : String) (blob : Nat) : List (String × Nat) :=
  [("আজকের বাংলা তারিখ: " ++ dateText, blob)]

/-- `postToBluesky` from index.js, as a trace-producing function.
`imageBytes` is the byte length of the file read by `readFileSync`; the
blob passed to `uploadBlob` is those bytes, unchecked. -/
def postToBluesky (env : Env) (io : BskyIO) (imageBytes : Nat) : PostResult :=
  let handle := jsOr env.BLUESKY_HANDLE env.BSKY_USERNAME
  let password := jsOr env.BLUESKY_PASSWORD env.BSKY_APP_PASSWORD
  if !truthy handle || !truthy password then
    { success := false, events := [], errorLogged := false }
  else if !io.loginOk then
    { success := false, events := [.login], errorLogged := true }
  else if !io.uploadOk then
    { success := false, events := [.login, .uploadBlob imageBytes], errorLogged := true }
  else if !io.postOk then
    { success := false,
      events := [.login, .uploadBlob imageBytes, .createPost 1],
      errorLogged := true }
  else
    { success := true,
      events := [.login, .uploadBlob imageBytes, .createPost 1],
      errorLogged := false }

/-- Outcome of one run of `main` from index.js. -/
structure RunOutcome where
  exitCode : Nat
  postResult : Option PostResult
deriving DecidableEq

/-- `main` from index.js: any exception before or during image generation
(`genOk = false`) is caught and the process exits 1; otherwise the post step
runs only when `POST_TO_BLUESKY` lower-cases to "true", its result is
ignored, and the process exits 0. -/
def mainRun (env : Env) (io : BskyIO) (imageBytes : Nat) (genOk : Bool) : RunOutcome :=
  if !genOk then { exitCode := 1, postResult := none }
  else
    let shouldPost :=
      match env.POST_TO_BLUESKY with
      | none => false
      | some s => jsToLowerCase s == "true"
    if shouldPost then
      { exitCode := 0, postResult := some (postToBluesky env io imageBytes) }
    else
      { exitCode := 0, postResult := none }

/-- Is an event an `uploadBlob` call? -/
def isUpload : Event → Bool
  | .uploadBlob _ => true
  | _ => false

/-- Is an event a `createPost` call? -/
def isPostCall : Event → Bool
  | .createPost _ => true
  | _ => false

/-- How many events of a trace satisfy `p`. -/
def countEvents (p : Event → Bool) (l : List Event) : Nat := (l.filter p).length

/-- `true` iff somewhere in the trace a `createPost` call is followed
(strictly later) by an `uploadBlob` call. -/
def uploadAfterPost : List Event → Bool
  | [] => false
  | e :: rest => (isPostCall e && rest.any isUpload) || uploadAfterPost rest

/-- The 12 Bangla month names, in calendar order (the keys of `BANGLA_SEASONS`). -/
def banglaMonths : List String := keysOf BANGLA_SEASONS

/-- The six Bangla season names, in calendar order. -/
def banglaSeasonsList : List String :=
  ["গ্রীষ্ম", "বর্ষা", "শরৎ", "হেমন্ত", "শীত", "বসন্ত"]

/-! ## Spec-modelled components: compressor, assembler (§4.1, §4.3)

The Python scripts (bing_bluesky.py, spotlight_bluesky.py,
lockscreen_bluesky.py) that implement these are not under src/; they are
modelled from the spec. -/

/-- Modelled from the spec: the quality ladder "100→20 step 5" (§6
configuration; §4.1 algorithm) of the compression code, which is not under
src/. -/
def qualityLadder : List Nat :=
  [100, 95, 90, 85, 80, 75, 70, 65, 60, 55, 50, 45, 40, 35, 30, 25, 20]

/-- Modelled from the spec: `compress` of the SizeBudgetCompressor (§4.1),
whose implementation is not under src/.  `encode q` is the byte length of
the deterministic re-encoding of the fixed input image at quality `q`; the
first ladder quality meeting the ceiling wins, `none` is
`CompressionExhausted`.  Per the repository documentation ("No image
resizing - maintains original dimensions") there is no resize phase. -/
def compress (encode : Nat → Nat) (byteCeiling : Nat) : Option Nat :=
  match qualityLadder.find? (fun q => decide (encode q ≤ byteCeiling)) with
  | some q => some (encode q)
  | none => none

/-- The posting API's hard per-image blob limit of 1 MB (§6: the byte
ceiling default is this limit minus a safety margin). -/
def postApiByteLimit : Nat := 1000000

/-- Errors of the PostAssembler (§4.3). -/
inductive AssembleError where
  | TooManyImages
  | ImageAltMismatch
deriving DecidableEq

/-- A post payload (§3): caption text plus ordered (altText, image) pairs. -/
structure PostPayload where
  captionText : String
  images : List (String × Nat)
deriving DecidableEq

/-- Modelled from the spec: `assemble` of the PostAssembler (§4.3), whose
implementation is not under src/.  Rejects an empty image list and a list
longer than `maxImagesPerPost` with `TooManyImages`, and mismatched
alt-text/image counts with `ImageAltMismatch`. -/
def assemble (images : List Nat) (altTexts : List String) (caption : String)
    (maxImagesPerPost : Nat) : Except AssembleError PostPayload :=
  if images.length = 0 ∨ maxImagesPerPost < images.length then
    .error .TooManyImages
  else if images.length ≠ altTexts.length then
    .error .ImageAltMismatch
  else
    .ok { captionText := caption, images := altTexts.zip images }

/-! ## The post text composed by postToBluesky (lines 418, 456) -/

/-- `captionDateText` from index.js line 418:
`${date} ${month}, ${year} বঙ্গাব্দ`. -/
def dateTextOf (date month year : String) : String :=
  date ++ " " ++ month ++ ", " ++ year ++ " বঙ্গাব্দ"

/-- `postText` from index.js line 456: weekday line, date line, season line,
then the fixed hashtag block. -/
def postTextOf (weekday dateText season : String) : String :=
  "আজ রোজ " ++ weekday ++ ",\n" ++ dateText ++ "\nএবং " ++ season ++
    "কাল\n\n#Bangladesh #Bangla #বাংলাদেশ #বাংলা #বাংলাতারিখ #তারিখ #date #BanglaDate"

/-- Modelled from the spec: the weekday strings produced by the external
`bangla-calendar` library's `getWeekDay` (format eeee), which is not under
src/ — the seven Bangla weekday names. -/
def banglaWeekdays : List String :=
  ["রবিবার", "সোমবার", "মঙ্গলবার", "বুধবার", "বৃহস্পতিবার", "শুক্রবার", "শনিবার"]

/-- The 31 ordinal day strings `getBanglaOrdinal` can produce for the
library's day numerals (the values of `BANGLA_ORDINALS`). -/
def banglaOrdinalValues : List String := BANGLA_ORDINALS.map Prod.snd

/-- The caption ceiling: Bluesky's 300-character post-text limit (§6). -/
def captionCeiling : Nat := 300

/-! ## Spec-modelled CaptionBudgetBuilder (§4.2)

The caption-budget code lives in the Python scripts, which are not under
src/; the builder is modelled from the spec's algorithm. -/

/-- Modelled from the spec: a caption segment's kind (§3). -/
inductive SegKind where
  | required
  | optional
deriving DecidableEq

/-- Modelled from the spec: `CaptionSegment` (§3). -/
structure CaptionSegment where
  id : String
  text : String
  priority : Nat
  kind : SegKind
  isHashtagBlock : Bool
deriving DecidableEq

/-- Whether a segment may be dropped. -/
def isOptionalSeg (s : CaptionSegment) : Bool :=
  match s.kind with
  | .optional => true
  | .required => false

/-- Concatenation of the segment texts in original order. -/
def composeText (l : List CaptionSegment) : String :=
  l.foldr (fun s acc => s.text ++ acc) ""

/-- The `Required` segments of a list, in order. -/
def requiredOnly (l : List CaptionSegment) : List CaptionSegment :=
  l.filter (fun s => !isOptionalSeg s)

/-- Number of `Optional` segments. -/
def countOptional (l : List CaptionSegment) : Nat :=
  (l.filter isOptionalSeg).length

/-- Highest priority value among the remaining `Optional` segments. -/
def maxOptPriority (l : List CaptionSegment) : Nat :=
  ((l.filter isOptionalSeg).map (fun s => s.priority)).foldr max 0

/-- Remove the first `Optional` segment whose priority is `p`. -/
def removeFirstOptWith (p : Nat) : List CaptionSegment → List CaptionSegment
  | [] => []
  | s :: rest =>
    if isOptionalSeg s && s.priority == p then rest
    else s :: removeFirstOptWith p rest

/-- Modelled from the spec: one drop step — "remove the remaining Optional
segment with the highest priority value" (§4.2). -/
def dropHighestOptional (l : List CaptionSegment) : List CaptionSegment :=
  removeFirstOptWith (maxOptPriority l) l

/-- The builder's failure case (§7). -/
inductive BuildError where
  | CaptionTooLong
deriving DecidableEq

/-- Drop loop of the builder; `fuel` is the number of `Optional` segments
remaining, so fuel 0 means only `Required` segments are left. -/
def buildGo (fuel : Nat) (l : List CaptionSegment) (ceiling : Nat) :
    Except BuildError String :=
  match fuel with
  | 0 =>
    if (composeText l).length ≤ ceiling then .ok (composeText l)
    else .error .CaptionTooLong
  | fuel + 1 =>
    if (composeText l).length ≤ ceiling then .ok (composeText l)
    else buildGo fuel (dropHighestOptional l) ceiling

/-- Modelled from the spec: `build` of the CaptionBudgetBuilder (§4.2),
whose implementation is not under src/: concatenate all segments in order;
while the candidate exceeds the ceiling and `Optional` segments remain,
remove the remaining `Optional` segment with the highest priority value;
fail with `CaptionTooLong` when only `Required` segments remain and the
ceiling is still exceeded. -/
def build (segments : List CaptionSegment) (ceiling : Nat) :
    Except BuildError String :=
  buildGo (countOptional segments) segments ceiling

/-- The spec's worked scenario (§8): one required title and two optional
segments with drop priorities 2 (region) and 1 (hashtags). -/
def scenarioSegments : List CaptionSegment :=
  [{ id := "title", text := "Todays wallpaper", priority := 0,
     kind := .required, isHashtagBlock := false },
   { id := "region", text := " Region: JP", priority := 2,
     kind := .optional, isHashtagBlock := false },
   { id := "tags", text := " #Wallpaper #Photo", priority := 1,
     kind := .optional, isHashtagBlock := true }]

/-! ## Spec-modelled hashtag-span detection (§4.2)

Facet detection happens in the external @atproto RichText library and in
the Python scripts, neither under src/; the scanner is modelled from the
spec: "locates each #token by scanning for a leading marker followed by a
contiguous run of word characters; offsets are recorded as byte (not
code-point) ranges". -/

/-- Modelled from the spec: a word character for hashtag tokens —
alphanumeric, underscore, or any non-ASCII character (the posting
protocol's hashtag tokens include non-Latin scripts). -/
def isWordChar (c : Char) : Bool :=
  c.isAlphanum || c == '_' || decide (128 ≤ c.toNat)

/-- UTF-8 encoding of one character, as byte values. -/
def charUtf8Bytes (c : Char) : List Nat :=
  let n := c.toNat
  if n < 128 then [n]
  else if n < 2048 then [192 + n / 64, 128 + n % 64]
  else if n < 65536 then [224 + n / 4096, 128 + n / 64 % 64, 128 + n % 64]
  else [240 + n / 262144, 128 + n / 4096 % 64, 128 + n / 64 % 64, 128 + n % 64]

/-- UTF-8 encoding of a character sequence. -/
def utf8Bytes (l : List Char) : List Nat :=
  l.foldr (fun c acc => charUtf8Bytes c ++ acc) []

/-- UTF-8 byte length of a character sequence. -/
def utf8Len (l : List Char) : Nat := (utf8Bytes l).length

/-- Longest leading run of word characters, and the remainder. -/
def takeWordRun : List Char → List Char × List Char
  | [] => ([], [])
  | c :: rest =>
    if isWordChar c then
      let p := takeWordRun rest
      (c :: p.1, p.2)
    else ([], c :: rest)

/-- Scanner core: walk the text keeping the current byte offset; at a `#`
followed by a nonempty word-character run emit the byte-offset span of the
whole `#token` and continue after it.  `fuel` only bounds recursion (it is
chosen large enough to never run out). -/
def detectAux : Nat → Nat → List Char → List (Nat × Nat)
  | 0, _, _ => []
  | _ + 1, _, [] => []
  | fuel + 1, off, c :: rest =>
    if c == '#' then
      match takeWordRun rest with
      | (r, rest2) =>
        if r.isEmpty then detectAux fuel (off + utf8Len [c]) rest
        else
          (off, off + utf8Len (c :: r)) ::
            detectAux fuel (off + utf8Len (c :: r)) rest2
    else detectAux fuel (off + utf8Len [c]) rest

/-- Modelled from the spec: hashtag-span detection over a final text,
returning byte-offset ranges of each `#token`. -/
def detectHashtagSpans (text : List Char) : List (Nat × Nat) :=
  detectAux (text.length + 1) 0 text

end BskyAutopost

namespace BskyAutopost

/-- An association-list lookup misses exactly when the key is not among the keys. -/
theorem lookup_eq_none_of_not_mem_keys (l : List (String × String)) (k : String)
    (h : k ∉ keysOf l) : l.lookup k = none := by
  induction l with
  | nil => rfl
  | cons p rest ih =>
    simp only [keysOf, List.map_cons, List.mem_cons, not_or] at h
    simp only [List.lookup]
    have hne : (k == p.1) = false := by
      cases hb : k == p.1 with
      | false => rfl
      | true => exact absurd (beq_iff_eq.mp hb) h.1
    simp only [hne]
    exact ih (by simpa [keysOf] using h.2)

/-- Counterexample to C9 as stated: at the input "toString" the property
access finds the inherited, truthy `Object.prototype.toString`, so
`getBanglaOrdinal` returns that member — not the input string unchanged. -/
theorem getBanglaOrdinal_prototype_counterexample :
    getBanglaOrdinal "toString" = .inherited "toString"
    ∧ getBanglaOrdinal "toString" ≠ .str "toString" := by decide

/-- C9 amended: on each of the 31 Bangla numerals ১..৩১ `getBanglaOrdinal`
returns the numeral with the claimed ordinal suffix appended (লা for 1,
রা for 2-3, ঠা for 4, ই for 5-18, শে for 19-31); on strings that are
neither table keys nor inherited `Object.prototype` property names it
returns the input unchanged; on an inherited property name it returns the
inherited prototype member instead of the input. -/
theorem getBanglaOrdinal_spec :
    (∀ n, n ≤ 31 → 1 ≤ n →
      getBanglaOrdinal (banglaNumeral n) = .str (banglaNumeral n ++ ordinalSuffix n))
    ∧ (∀ s, s ∉ keysOf BANGLA_ORDINALS → s ∉ objectPrototypeKeys →
        getBanglaOrdinal s = .str s)
    ∧ (∀ s, s ∉ keysOf BANGLA_ORDINALS → s ∈ objectPrototypeKeys →
        getBanglaOrdinal s = .inherited s) := by
  refine ⟨by decide, ?_, ?_⟩
  · intro s hk hp
    unfold getBanglaOrdinal jsObjectGet
    rw [lookup_eq_none_of_not_mem_keys _ _ hk]
    simp [hp]
  · intro s hk hp
    unfold getBanglaOrdinal jsObjectGet
    rw [lookup_eq_none_of_not_mem_keys _ _ hk]
    simp [hp]

/-- Witness for C9 at the concrete inputs ১৯, "hello" and "valueOf". -/
theorem getBanglaOrdinal_spec_witness :
    getBanglaOrdinal (banglaNumeral 19) = .str (banglaNumeral 19 ++ ordinalSuffix 19)
    ∧ getBanglaOrdinal "hello" = .str "hello"
    ∧ getBanglaOrdinal "valueOf" = .inherited "valueOf" :=
  ⟨getBanglaOrdinal_spec.1 19 (by decide) (by decide),
   getBanglaOrdinal_spec.2.1 "hello" (by decide) (by decide),
   getBanglaOrdinal_spec.2.2 "valueOf" (by decide) (by decide)⟩

/-- Counterexample to C10 as stated: at the input "toString" the property
access finds the inherited, truthy `Object.prototype.toString`, so
`getBanglaSeason` returns that member — not the empty string. -/
theorem getBanglaSeason_prototype_counterexample :
    getBanglaSeason "toString" = .inherited "toString"
    ∧ getBanglaSeason "toString" ≠ .str "" := by decide

/-- C10 amended: the 12 month names map (in consecutive pairs 2i, 2i+1)
onto a list of exactly six pairwise-distinct season names; strings that are
neither month names nor inherited `Object.prototype` property names map to
the empty string; an inherited property name yields the inherited prototype
member instead. -/
theorem getBanglaSeason_spec :
    banglaMonths.length = 12
    ∧ banglaSeasonsList.length = 6
    ∧ banglaSeasonsList.Nodup
    ∧ (∀ i, i < 6 →
        getBanglaSeason (banglaMonths.getD (2 * i) "")
          = .str (banglaSeasonsList.getD i "")
        ∧ getBanglaSeason (banglaMonths.getD (2 * i + 1) "")
          = .str (banglaSeasonsList.getD i ""))
    ∧ (∀ m ∈ banglaMonths, ∃ t ∈ banglaSeasonsList, getBanglaSeason m = .str t)
    ∧ (∀ s, s ∉ banglaMonths → s ∉ objectPrototypeKeys →
        getBanglaSeason s = .str "")
    ∧ (∀ s, s ∉ banglaMonths → s ∈ objectPrototypeKeys →
        getBanglaSeason s = .inherited s) := by
  refine ⟨rfl, rfl, by decide, by decide, by decide, ?_, ?_⟩
  · intro s hk hp
    unfold getBanglaSeason jsObjectGet
    rw [lookup_eq_none_of_not_mem_keys _ _ hk]
    simp [hp]
  · intro s hk hp
    unfold getBanglaSeason jsObjectGet
    rw [lookup_eq_none_of_not_mem_keys _ _ hk]
    simp [hp]

/-- Witness for C10 at the concrete inputs কার্তিক (month index 6, season
index 3), "xyz" and "hasOwnProperty". -/
theorem getBanglaSeason_spec_witness :
    getBanglaSeason (banglaMonths.getD (2 * 3) "") = .str (banglaSeasonsList.getD 3 "")
    ∧ getBanglaSeason "xyz" = .str ""
    ∧ getBanglaSeason "hasOwnProperty" = .inherited "hasOwnProperty" :=
  ⟨(getBanglaSeason_spec.2.2.2.1 3 (by decide)).1,
   getBanglaSeason_spec.2.2.2.2.2.1 "xyz" (by decide) (by decide),
   getBanglaSeason_spec.2.2.2.2.2.2 "hasOwnProperty" (by decide) (by decide)⟩

/-- An environment with credentials present and posting enabled. -/
def envFull : Env :=
  { BLUESKY_HANDLE := some "alice.bsky.social"
    BSKY_USERNAME := none
    BLUESKY_PASSWORD := some "app-pass"
    BSKY_APP_PASSWORD := none
    POST_TO_BLUESKY := some "true" }

/-- All external calls succeed. -/
def ioAllOk : BskyIO := { loginOk := true, uploadOk := true, postOk := true }

/-- Login succeeds, the blob upload fails. -/
def ioUploadFails : BskyIO := { loginOk := true, uploadOk := false, postOk := true }

/-- C1: in every `postToBluesky` run, a successful run issues exactly one
`uploadBlob` call per image (the script has one image) and exactly one
`createPost` call; no `uploadBlob` call ever follows a `createPost` call,
so all uploads complete before the post is created; and if login or the
upload fails, no `createPost` call is ever issued. -/
theorem postToBluesky_atomicity :
    ∀ (env : Env) (io : BskyIO) (n : Nat),
      ((postToBluesky env io n).success = true →
        countEvents isUpload (postToBluesky env io n).events = 1
        ∧ countEvents isPostCall (postToBluesky env io n).events = 1)
      ∧ uploadAfterPost (postToBluesky env io n).events = false
      ∧ (io.loginOk = false ∨ io.uploadOk = false →
          countEvents isPostCall (postToBluesky env io n).events = 0) := by
  intro env io n
  obtain ⟨l, u, p⟩ := io
  cases l <;> cases u <;> cases p <;>
    (simp only [postToBluesky]
     split <;>
       simp [countEvents, uploadAfterPost, isUpload, isPostCall, List.filter])

/-- Witness for C1: a fully successful run, and a run whose upload fails. -/
theorem postToBluesky_atomicity_witness :
    (countEvents isUpload (postToBluesky envFull ioAllOk 1000).events = 1
      ∧ countEvents isPostCall (postToBluesky envFull ioAllOk 1000).events = 1)
    ∧ countEvents isPostCall (postToBluesky envFull ioUploadFails 1000).events = 0 :=
  ⟨(postToBluesky_atomicity envFull ioAllOk 1000).1 (by decide),
   (postToBluesky_atomicity envFull ioUploadFails 1000).2.2 (Or.inr rfl)⟩

/-- C8: when the handle or the password environment variables are missing,
`postToBluesky` returns false with an empty call trace — no login, upload
or post-creation call occurs. -/
theorem postToBluesky_skips_without_credentials :
    ∀ (env : Env) (io : BskyIO) (n : Nat),
      (env.BLUESKY_HANDLE = none ∧ env.BSKY_USERNAME = none)
      ∨ (env.BLUESKY_PASSWORD = none ∧ env.BSKY_APP_PASSWORD = none) →
      postToBluesky env io n = { success := false, events := [], errorLogged := false } := by
  intro env io n h
  obtain ⟨h1, h2⟩ | ⟨h1, h2⟩ := h <;> simp [postToBluesky, h1, h2, jsOr, truthy]

/-- Witness for C8: password variables both absent. -/
theorem postToBluesky_skips_without_credentials_witness :
    postToBluesky
        { BLUESKY_HANDLE := some "alice.bsky.social", BSKY_USERNAME := none
          BLUESKY_PASSWORD := none, BSKY_APP_PASSWORD := none
          POST_TO_BLUESKY := some "true" }
        ioAllOk 5
      = { success := false, events := [], errorLogged := false } :=
  postToBluesky_skips_without_credentials _ ioAllOk 5 (Or.inr ⟨rfl, rfl⟩)

/-- Counterexample to C2 as stated: on a 2,000,000-byte generated image the
Bangla-date script passes the blob to `uploadBlob` even though it exceeds
the posting API's 1 MB per-image limit — no size check guards the upload. -/
theorem bangla_upload_over_limit :
    Event.uploadBlob 2000000 ∈ (postToBluesky envFull ioAllOk 2000000).events
    ∧ postApiByteLimit < 2000000 := by decide

/-- C2 amended: the spec-modelled `compress` never returns a byte length
over the ceiling; but the Bangla-date script uploads the generated file's
bytes unchanged, with no compression or ceiling check before `uploadBlob`. -/
theorem compress_le_ceiling_and_upload_unchecked :
    (∀ (encode : Nat → Nat) (c n : Nat), compress encode c = some n → n ≤ c)
    ∧ (∀ (env : Env) (io : BskyIO) (n m : Nat),
        Event.uploadBlob m ∈ (postToBluesky env io n).events → m = n) := by
  constructor
  · intro encode c n h
    unfold compress at h
    cases hf : qualityLadder.find? (fun q => decide (encode q ≤ c)) with
    | none => rw [hf] at h; exact absurd h (by simp)
    | some q =>
      rw [hf] at h
      have hq := List.find?_some hf
      have hn : encode q = n := by simpa using h
      simp only [decide_eq_true_eq] at hq
      omega
  · intro env io n m h
    obtain ⟨l, u, p⟩ := io
    cases l <;> cases u <;> cases p <;>
      (simp only [postToBluesky] at h
       split at h <;> simp_all)

/-- Witness for C2 amended: a constant 500,000-byte encoding under a 1 MB
ceiling, and the upload argument of a concrete run. -/
theorem compress_le_ceiling_and_upload_unchecked_witness :
    500000 ≤ 1000000 ∧ 777 = 777 :=
  ⟨compress_le_ceiling_and_upload_unchecked.1 (fun _ => 500000) 1000000 500000 (by decide),
   compress_le_ceiling_and_upload_unchecked.2 envFull ioAllOk 777 777 (by decide)⟩

/-- Counterexample to C3 as stated: with credentials present and posting
enabled, a failing blob upload leaves the process exiting with status 0 —
the run's failure does not produce a non-zero exit status. -/
theorem failed_upload_exits_zero :
    (mainRun envFull ioUploadFails 500000 true).exitCode = 0
    ∧ (postToBluesky envFull ioUploadFails 500000).success = false := by
  decide

/-- C3 amended: a failing login, upload or post-creation call is logged by
`postToBluesky`'s catch block (with the error message) and makes it return
false, but `main` ignores that result: the exit code is 1 exactly when
image generation throws, and 0 otherwise — posting-step failures never
change the exit status. -/
theorem error_logged_but_exit_zero :
    ∀ (env : Env) (io : BskyIO) (n : Nat),
      (truthy (jsOr env.BLUESKY_HANDLE env.BSKY_USERNAME) = true →
        truthy (jsOr env.BLUESKY_PASSWORD env.BSKY_APP_PASSWORD) = true →
        io.loginOk = false ∨ io.uploadOk = false ∨ io.postOk = false →
        (postToBluesky env io n).success = false
        ∧ (postToBluesky env io n).errorLogged = true)
      ∧ (∀ genOk, (mainRun env io n genOk).exitCode = if genOk then 0 else 1) := by
  intro env io n
  constructor
  · intro hh hp hfail
    obtain ⟨l, u, p⟩ := io
    cases l <;> cases u <;> cases p <;> simp_all [postToBluesky]
  · intro genOk
    cases genOk with
    | false => rfl
    | true =>
      simp only [mainRun]
      split
      · rename_i hg; simp at hg
      · split <;> rfl

/-- Witness for C3 amended: a failing login with credentials present, and
both exit-code cases. -/
theorem error_logged_but_exit_zero_witness :
    ((postToBluesky envFull { loginOk := false, uploadOk := true, postOk := true } 10).success = false
      ∧ (postToBluesky envFull { loginOk := false, uploadOk := true, postOk := true } 10).errorLogged = true)
    ∧ (mainRun envFull { loginOk := false, uploadOk := true, postOk := true } 10 true).exitCode
        = if true then 0 else 1 :=
  ⟨(error_logged_but_exit_zero envFull _ 10).1 (by decide) (by decide) (Or.inl rfl),
   (error_logged_but_exit_zero envFull _ 10).2 true⟩

/-- C5: `assemble` yields payloads with between 1 and `maxImagesPerPost`
images, rejecting an empty list and an over-long list with `TooManyImages`;
and the Bangla-date post's embed contains exactly one image paired with its
alt text. -/
theorem assemble_image_count_invariant :
    (∀ (imgs : List Nat) (alts : List String) (cap : String) (mx : Nat) (p : PostPayload),
        assemble imgs alts cap mx = .ok p →
        1 ≤ p.images.length ∧ p.images.length ≤ mx)
    ∧ (∀ (imgs : List Nat) (alts : List String) (cap : String) (mx : Nat),
        imgs.length = 0 ∨ mx < imgs.length →
        assemble imgs alts cap mx = .error .TooManyImages)
    ∧ (∀ (dateText : String) (blob : Nat),
        banglaEmbedImages dateText blob
          = [("আজকের বাংলা তারিখ: " ++ dateText, blob)]
        ∧ (banglaEmbedImages dateText blob).length = 1) := by
  refine ⟨?_, ?_, fun _ _ => ⟨rfl, rfl⟩⟩
  · intro imgs alts cap mx p h
    unfold assemble at h
    split at h
    · exact absurd h (by simp)
    · split at h
      · exact absurd h (by simp)
      · rename_i hcount heq
        have hp : p = { captionText := cap, images := alts.zip imgs } := by
          simpa using h.symm
        subst hp
        push_neg at hcount
        simp only [List.length_zip]
        omega
  · intro imgs alts cap mx h
    unfold assemble
    split
    · rfl
    · rename_i hc
      exact absurd h hc

/-- C4: for every weekday the calendar library can produce, every ordinal
day string, every month (with its season), and every year numeral of at
most four characters, the composed post text stays within the 300-character
caption ceiling. -/
theorem postText_within_caption_ceiling :
    ∀ w ∈ banglaWeekdays, ∀ d ∈ banglaOrdinalValues, ∀ m ∈ banglaMonths,
      ∀ y : String, y.length ≤ 4 →
      (postTextOf w (dateTextOf d m y)
        (jsStrOrEmpty (getBanglaSeason m))).length ≤ captionCeiling := by
  intro w hw d hd m hm y hy
  have h1 : ∀ x ∈ banglaWeekdays, x.length ≤ 11 := by decide
  have h2 : ∀ x ∈ banglaOrdinalValues, x.length ≤ 4 := by decide
  have h3 : ∀ x ∈ banglaMonths,
      x.length ≤ 9 ∧ (jsStrOrEmpty (getBanglaSeason x)).length ≤ 7 := by
    decide
  have e1 := h1 w hw
  have e2 := h2 d hd
  obtain ⟨e3, e4⟩ := h3 m hm
  have l1 : ("আজ রোজ " : String).length = 7 := rfl
  have l2 : (",\n" : String).length = 2 := rfl
  have l3 : ("\nএবং " : String).length = 5 := rfl
  have l4 : ("কাল\n\n#Bangladesh #Bangla #বাংলাদেশ #বাংলা #বাংলাতারিখ #তারিখ #date #BanglaDate" : String).length = 78 := rfl
  have l5 : (" " : String).length = 1 := rfl
  have l6 : (", " : String).length = 2 := rfl
  have l7 : (" বঙ্গাব্দ" : String).length = 9 := rfl
  simp only [postTextOf, dateTextOf, String.length_append, captionCeiling]
  omega

/-- Witness for C4: the longest weekday, a শে-day, the longest month, and a
four-digit year. -/
theorem postText_within_caption_ceiling_witness :
    (postTextOf "বৃহস্পতিবার" (dateTextOf "১৯শে" "অগ্রহায়ণ" "১৪৩২")
        (jsStrOrEmpty (getBanglaSeason "অগ্রহায়ণ"))).length ≤ captionCeiling :=
  postText_within_caption_ceiling "বৃহস্পতিবার" (by decide) "১৯শে" (by decide)
    "অগ্রহায়ণ" (by decide) "১৪৩২" (by decide)

/-- Unfolding of `composeText` on a cons. -/
theorem composeText_cons (s : CaptionSegment) (l : List CaptionSegment) :
    composeText (s :: l) = s.text ++ composeText l := rfl

/-- The required-only composition is never longer than the full composition. -/
theorem length_required_le_length (l : List CaptionSegment) :
    (composeText (requiredOnly l)).length ≤ (composeText l).length := by
  induction l with
  | nil => exact Nat.le_refl _
  | cons s t ih =>
    by_cases hs : isOptionalSeg s = true
    · have hr : requiredOnly (s :: t) = requiredOnly t := by
        simp [requiredOnly, List.filter_cons, hs]
      rw [hr, composeText_cons, String.length_append]
      omega
    · have hb : isOptionalSeg s = false := by simpa using hs
      have hr : requiredOnly (s :: t) = s :: requiredOnly t := by
        simp [requiredOnly, List.filter_cons, hb]
      rw [hr, composeText_cons, composeText_cons, String.length_append,
        String.length_append]
      omega

/-- `removeFirstOptWith` yields a sublist of its input. -/
theorem removeFirstOptWith_sublist (p : Nat) (l : List CaptionSegment) :
    (removeFirstOptWith p l).Sublist l := by
  induction l with
  | nil => exact List.Sublist.refl _
  | cons s t ih =>
    simp only [removeFirstOptWith]
    split
    · exact (List.Sublist.refl t).cons s
    · exact ih.cons₂ s

/-- `removeFirstOptWith` never touches the required segments. -/
theorem requiredOnly_removeFirstOptWith (p : Nat) (l : List CaptionSegment) :
    requiredOnly (removeFirstOptWith p l) = requiredOnly l := by
  induction l with
  | nil => rfl
  | cons s t ih =>
    simp only [removeFirstOptWith]
    split
    · rename_i hc
      rw [Bool.and_eq_true] at hc
      simp [requiredOnly, List.filter_cons, hc.1]
    · simp only [requiredOnly, List.filter_cons]
      have ihx : (removeFirstOptWith p t).filter (fun s => !isOptionalSeg s)
          = t.filter (fun s => !isOptionalSeg s) := ih
      rw [ihx]

/-- When an optional segment of priority `p` is present, removal drops
exactly one optional segment. -/
theorem countOptional_removeFirstOptWith (p : Nat) (l : List CaptionSegment)
    (h : ∃ s ∈ l, isOptionalSeg s = true ∧ s.priority = p) :
    countOptional (removeFirstOptWith p l) + 1 = countOptional l := by
  induction l with
  | nil => obtain ⟨s, hs, _⟩ := h; cases hs
  | cons s t ih =>
    simp only [removeFirstOptWith]
    split
    · rename_i hc
      rw [Bool.and_eq_true] at hc
      simp [countOptional, List.filter_cons, hc.1]
    · rename_i hc
      have hrec : ∃ x ∈ t, isOptionalSeg x = true ∧ x.priority = p := by
        obtain ⟨x, hx, hxo, hxp⟩ := h
        rcases List.mem_cons.mp hx with rfl | hxt
        · exact absurd (by rw [hxo, hxp]; simp) hc
        · exact ⟨x, hxt, hxo, hxp⟩
      have hcount := ih hrec
      by_cases ho : isOptionalSeg s = true
      · simp only [countOptional, List.filter_cons, ho, if_true, List.length_cons] at *
        omega
      · have hb : isOptionalSeg s = false := by simpa using ho
        simp only [countOptional, List.filter_cons, hb, Bool.false_eq_true,
          if_false] at *
        exact hcount

/-- Fold-max of a nonempty list of naturals is an element of it. -/
theorem foldr_max_mem (l : List Nat) (h : l ≠ []) : l.foldr max 0 ∈ l := by
  induction l with
  | nil => exact absurd rfl h
  | cons a t ih =>
    cases t with
    | nil => simp
    | cons b u =>
      have hfold : List.foldr max 0 (a :: b :: u) = max a (List.foldr max 0 (b :: u)) := rfl
      rw [hfold]
      rcases Nat.le_total (List.foldr max 0 (b :: u)) a with hle | hle
      · rw [Nat.max_eq_left hle]
        exact List.mem_cons_self a _
      · rw [Nat.max_eq_right hle]
        exact List.mem_cons_of_mem a (ih (by simp))

/-- A nonempty optional pool has an optional segment of maximal priority. -/
theorem exists_max_priority_optional (l : List CaptionSegment)
    (h : countOptional l ≠ 0) :
    ∃ s ∈ l, isOptionalSeg s = true ∧ s.priority = maxOptPriority l := by
  have hne : (l.filter isOptionalSeg).map (fun s => s.priority) ≠ [] := by
    intro hmap
    apply h
    have hnil : l.filter isOptionalSeg = [] := by
      cases hf : l.filter isOptionalSeg with
      | nil => rfl
      | cons x xs => rw [hf] at hmap; cases hmap
    simp [countOptional, hnil]
  have hmem := foldr_max_mem _ hne
  rw [List.mem_map] at hmem
  obtain ⟨s, hsf, hsp⟩ := hmem
  have hm := List.mem_filter.mp hsf
  exact ⟨s, hm.1, hm.2, hsp⟩

/-- Dropping the highest-priority optional decrements the optional count. -/
theorem countOptional_dropHighestOptional (l : List CaptionSegment)
    (h : countOptional l ≠ 0) :
    countOptional (dropHighestOptional l) + 1 = countOptional l :=
  countOptional_removeFirstOptWith _ l (exists_max_priority_optional l h)

/-- Dropping the highest-priority optional preserves the required segments. -/
theorem requiredOnly_dropHighestOptional (l : List CaptionSegment) :
    requiredOnly (dropHighestOptional l) = requiredOnly l :=
  requiredOnly_removeFirstOptWith _ l

/-- A list with no optional segments is all required. -/
theorem requiredOnly_eq_self_of_no_optional (l : List CaptionSegment)
    (h : countOptional l = 0) : requiredOnly l = l := by
  have hf : l.filter isOptionalSeg = [] := List.length_eq_zero.mp h
  apply List.filter_eq_self.mpr
  intro s hs
  cases ho : isOptionalSeg s with
  | false => simp [ho]
  | true =>
    have hmem : s ∈ l.filter isOptionalSeg := List.mem_filter.mpr ⟨hs, ho⟩
    rw [hf] at hmem
    cases hmem

/-- Any `ok` result of the drop loop is a within-ceiling composition of an
order-preserving subset of the segments keeping all required ones. -/
theorem buildGo_ok_spec (fuel : Nat) :
    ∀ (l : List CaptionSegment) (c : Nat) (t : String),
      buildGo fuel l c = .ok t →
      t.length ≤ c
      ∧ ∃ keep, keep.Sublist l ∧ requiredOnly keep = requiredOnly l
          ∧ t = composeText keep := by
  induction fuel with
  | zero =>
    intro l c t h
    simp only [buildGo] at h
    split at h
    · rename_i hlen
      have ht : composeText l = t := by simpa using h
      exact ⟨ht ▸ hlen, l, List.Sublist.refl l, rfl, ht.symm⟩
    · simp at h
  | succ fuel ih =>
    intro l c t h
    simp only [buildGo] at h
    split at h
    · rename_i hlen
      have ht : composeText l = t := by simpa using h
      exact ⟨ht ▸ hlen, l, List.Sublist.refl l, rfl, ht.symm⟩
    · obtain ⟨h1, keep, hsub, hreq, ht⟩ := ih (dropHighestOptional l) c t h
      exact ⟨h1, keep, hsub.trans (removeFirstOptWith_sublist _ l),
        hreq.trans (requiredOnly_dropHighestOptional l), ht⟩

/-- With fuel equal to the optional count, the drop loop fails exactly when
the required-only composition exceeds the ceiling. -/
theorem buildGo_error_iff (fuel : Nat) :
    ∀ (l : List CaptionSegment) (c : Nat), fuel = countOptional l →
      (buildGo fuel l c = .error .CaptionTooLong
        ↔ c < (composeText (requiredOnly l)).length) := by
  induction fuel with
  | zero =>
    intro l c hfuel
    have hreq : requiredOnly l = l := requiredOnly_eq_self_of_no_optional l hfuel.symm
    simp only [buildGo]
    split
    · rename_i hlen
      constructor
      · intro h; exact absurd h (by simp)
      · intro hc; rw [hreq] at hc; omega
    · rename_i hlen
      constructor
      · intro _; rw [hreq]; omega
      · intro _; rfl
  | succ fuel ih =>
    intro l c hfuel
    have hcnt : countOptional l ≠ 0 := by omega
    simp only [buildGo]
    split
    · rename_i hlen
      constructor
      · intro h; exact absurd h (by simp)
      · intro hc
        have hle := length_required_le_length l
        omega
    · rename_i hlen
      have hdec : fuel = countOptional (dropHighestOptional l) := by
        have := countOptional_dropHighestOptional l hcnt
        omega
      rw [ih _ c hdec, requiredOnly_dropHighestOptional l]

/-- C6: `build` (which repeatedly removes the remaining optional segment of
highest priority) returns, whenever the required segments alone fit the
ceiling, a caption within the ceiling made of whole segments in original
order keeping every required segment; and it fails with `CaptionTooLong`
exactly when the required-only composition exceeds the ceiling. -/
theorem build_caption_budget :
    ∀ (segments : List CaptionSegment) (ceiling : Nat),
      (∀ t, build segments ceiling = .ok t →
        t.length ≤ ceiling
        ∧ ∃ keep, keep.Sublist segments
            ∧ requiredOnly keep = requiredOnly segments
            ∧ t = composeText keep)
      ∧ (build segments ceiling = .error .CaptionTooLong
          ↔ ceiling < (composeText (requiredOnly segments)).length)
      ∧ ((composeText (requiredOnly segments)).length ≤ ceiling →
          ∃ t, build segments ceiling = .ok t ∧ t.length ≤ ceiling) := by
  intro segments ceiling
  have herr : build segments ceiling = .error .CaptionTooLong
      ↔ ceiling < (composeText (requiredOnly segments)).length :=
    buildGo_error_iff (countOptional segments) segments ceiling rfl
  refine ⟨fun t h => buildGo_ok_spec _ segments ceiling t h, herr, ?_⟩
  intro hreq
  cases hb : build segments ceiling with
  | ok t => exact ⟨t, rfl, (buildGo_ok_spec _ segments ceiling t hb).1⟩
  | error e =>
    cases e
    exact absurd (herr.mp hb) (by omega)

/-- Witness for C6: the spec's scenario at ceiling 20 drops both optional
segments and returns the required-only caption. -/
theorem build_caption_budget_witness :
    (("Todays wallpaper" : String).length ≤ 20
      ∧ ∃ keep, keep.Sublist scenarioSegments
          ∧ requiredOnly keep = requiredOnly scenarioSegments
          ∧ "Todays wallpaper" = composeText keep) :=
  (build_caption_budget scenarioSegments 20).1 "Todays wallpaper" (by rfl)

/-- Witness for C5: a one-image assembly and an empty-list rejection. -/
theorem assemble_image_count_invariant_witness :
    (1 ≤ (PostPayload.mk "cap" [("alt", 1000)]).images.length
      ∧ (PostPayload.mk "cap" [("alt", 1000)]).images.length ≤ 4)
    ∧ assemble [] [] "" 4 = .error .TooManyImages :=
  ⟨assemble_image_count_invariant.1 [1000] ["alt"] "cap" 4 _ (by rfl),
   assemble_image_count_invariant.2.1 [] [] "" 4 (Or.inl rfl)⟩

/-- UTF-8 encoding distributes over concatenation. -/
theorem utf8Bytes_append (a b : List Char) :
    utf8Bytes (a ++ b) = utf8Bytes a ++ utf8Bytes b := by
  induction a with
  | nil => rfl
  | cons c t ih =>
    show charUtf8Bytes c ++ utf8Bytes (t ++ b)
      = (charUtf8Bytes c ++ utf8Bytes t) ++ utf8Bytes b
    rw [ih, List.append_assoc]

/-- UTF-8 length of a cons. -/
theorem utf8Len_cons (c : Char) (l : List Char) :
    utf8Len (c :: l) = utf8Len [c] + utf8Len l := by
  have h : (c :: l) = [c] ++ l := rfl
  rw [h, utf8Len, utf8Bytes_append, List.length_append]
  rfl

/-- UTF-8 length distributes over concatenation. -/
theorem utf8Len_append (a b : List Char) :
    utf8Len (a ++ b) = utf8Len a + utf8Len b := by
  rw [utf8Len, utf8Bytes_append, List.length_append]
  rfl

/-- `takeWordRun` splits its input into a word-character run and the rest. -/
theorem takeWordRun_spec :
    ∀ (l r rest2 : List Char), takeWordRun l = (r, rest2) →
      l = r ++ rest2 ∧ ∀ c ∈ r, isWordChar c = true := by
  intro l
  induction l with
  | nil =>
    intro r rest2 h
    simp only [takeWordRun, Prod.mk.injEq] at h
    obtain ⟨h1, h2⟩ := h
    subst h1
    subst h2
    exact ⟨rfl, by intro c hc; cases hc⟩
  | cons c t ih =>
    intro r rest2 h
    simp only [takeWordRun] at h
    split at h
    · rename_i hw
      cases hp : takeWordRun t with
      | mk r' rest2p =>
        rw [hp] at h
        simp only [Prod.mk.injEq] at h
        obtain ⟨hr, hrest⟩ := h
        obtain ⟨hsplit, hall⟩ := ih r' rest2p hp
        subst hr
        subst hrest
        constructor
        · simp [hsplit]
        · intro x hx
          rcases List.mem_cons.mp hx with rfl | hxt
          · exact hw
          · exact hall x hxt
    · rename_i hw
      simp only [Prod.mk.injEq] at h
      obtain ⟨hr, hrest⟩ := h
      subst hr
      subst hrest
      exact ⟨rfl, by intro x hx; cases hx⟩

/-- Every span emitted by the scanner core marks a `#token` decomposition
of its input, with byte offsets measured from `off`. -/
theorem detectAux_sound :
    ∀ (fuel : Nat) (off : Nat) (l : List Char) (s e : Nat),
      (s, e) ∈ detectAux fuel off l →
      ∃ pre tok post, l = pre ++ '#' :: (tok ++ post)
        ∧ tok ≠ [] ∧ (∀ c ∈ tok, isWordChar c = true)
        ∧ s = off + utf8Len pre ∧ e = s + utf8Len ('#' :: tok) := by
  intro fuel
  induction fuel with
  | zero => intro off l s e h; cases h
  | succ fuel ih =>
    intro off l s e h
    cases l with
    | nil => cases h
    | cons c rest =>
      simp only [detectAux] at h
      split at h
      · rename_i hc
        have hceq : c = '#' := by simpa using hc
        cases hp : takeWordRun rest with
        | mk r rest2 =>
          simp only [hp] at h
          obtain ⟨hsplit, hall⟩ := takeWordRun_spec rest r rest2 hp
          split at h
          · obtain ⟨pre, tok, post, hdec, hne, hword, hs, he⟩ :=
              ih (off + utf8Len [c]) rest s e h
            refine ⟨c :: pre, tok, post, by rw [hdec]; rfl, hne, hword, ?_, he⟩
            rw [hs, utf8Len_cons c pre]
            omega
          · rename_i hempty
            have hne2 : r ≠ [] := by
              intro hr
              rw [hr] at hempty
              exact hempty rfl
            cases h with
            | head =>
              refine ⟨[], r, rest2, ?_, hne2, hall, ?_, ?_⟩
              · rw [hceq, hsplit]; rfl
              · rfl
              · rw [hceq]
            | tail _ htail =>
              obtain ⟨pre, tok, post, hdec, hne, hword, hs, he⟩ :=
                ih (off + utf8Len (c :: r)) rest2 s e htail
              refine ⟨c :: (r ++ pre), tok, post, ?_, hne, hword, ?_, he⟩
              · rw [hceq, hsplit, hdec]
                simp
              · rw [hs, utf8Len_cons c r, utf8Len_cons c (r ++ pre),
                  utf8Len_append r pre]
                omega
      · rename_i hc
        obtain ⟨pre, tok, post, hdec, hne, hword, hs, he⟩ :=
          ih (off + utf8Len [c]) rest s e h
        refine ⟨c :: pre, tok, post, by rw [hdec]; rfl, hne, hword, ?_, he⟩
        rw [hs, utf8Len_cons c pre]
        omega

/-- C7: every hashtag span returned for a final text is a byte-offset range
lying inside the text whose byte slice is exactly the UTF-8 encoding of a
`#token` with a nonempty all-word-character token — no span dangles outside
the text. -/
theorem detectHashtagSpans_valid :
    ∀ (text : List Char) (s e : Nat), (s, e) ∈ detectHashtagSpans text →
      s ≤ e ∧ e ≤ utf8Len text
      ∧ ∃ tok, tok ≠ [] ∧ (∀ c ∈ tok, isWordChar c = true)
          ∧ ((utf8Bytes text).drop s).take (e - s) = utf8Bytes ('#' :: tok) := by
  intro text s e h
  obtain ⟨pre, tok, post, hdec, hne, hword, hs, he⟩ :=
    detectAux_sound (text.length + 1) 0 text s e h
  have htag : ('#' :: (tok ++ post)) = ('#' :: tok) ++ post := rfl
  have hbytes : utf8Bytes text
      = utf8Bytes pre ++ (utf8Bytes ('#' :: tok) ++ utf8Bytes post) := by
    rw [hdec, utf8Bytes_append, htag, utf8Bytes_append]
  have hlen : utf8Len text = utf8Len pre + (utf8Len ('#' :: tok) + utf8Len post) := by
    rw [hdec, utf8Len_append, htag, utf8Len_append]
  refine ⟨by omega, by omega, tok, hne, hword, ?_⟩
  have hes : e - s = (utf8Bytes ('#' :: tok)).length := by
    rw [he]
    simp [utf8Len]
  have hs' : s = (utf8Bytes pre).length := by
    rw [hs]
    simp [utf8Len]
  rw [hbytes, hes, hs', List.drop_left, List.take_left]

/-- Witness for C7: the text "hi #tag" carries the single span (3, 7). -/
theorem detectHashtagSpans_valid_witness :
    (3, 7) ∈ detectHashtagSpans ['h', 'i', ' ', '#', 't', 'a', 'g']
    ∧ (3 ≤ 7 ∧ 7 ≤ utf8Len ['h', 'i', ' ', '#', 't', 'a', 'g']
        ∧ ∃ tok, tok ≠ [] ∧ (∀ c ∈ tok, isWordChar c = true)
            ∧ ((utf8Bytes ['h', 'i', ' ', '#', 't', 'a', 'g']).drop 3).take (7 - 3)
                = utf8Bytes ('#' :: tok)) :=
  ⟨by decide,
   detectHashtagSpans_valid ['h', 'i', ' ', '#', 't', 'a', 'g'] 3 7 (by decide)⟩

end BskyAutopost
